import Mathlib

/-!
# Verification of the cache-aside store and change-notification multiplexer

Shallow embedding of `src/cache/cache_aside.go` (package `cache`) and of the
listener/watch portion of the database layer (`DB.Watch`, `DB.watch`,
`DB.getWatchCallbacks`).  Byte sequences are modelled as `List Nat`, the
key-value backend as a function `String → Option (List Nat)`, Go errors as a
small inductive mirroring `fmt.Errorf("op: %w", err)` wrapping.
-/

namespace Telescope

/-- Go errors: `base` is a leaf error, `wrap op e` mirrors
`fmt.Errorf("op: %w", err)`. -/
inductive GoErr where
  | base (msg : String)
  | wrap (op : String) (e : GoErr)
  deriving DecidableEq, Repr

/-- `compressThreshold` — gzip content larger than 4 KiB
(`const compressThreshold = 4 * 1024`). -/
def compressThreshold : Nat := 4 * 1024

/-- The three gzip magic bytes checked by `isGzipped`:
`gzipID1 = 0x1f`, `gzipID2 = 0x8b`, `gzipDeflate = 8`. -/
def gzipMagic : List Nat := [0x1f, 0x8b, 0x08]

/-- `isGzipped` tests if content is gzipped: false when fewer than 3 bytes,
otherwise true iff `b[0] = 0x1f`, `b[1] = 0x8b`, `b[2] = 8`. -/
def isGzipped (b : List Nat) : Bool :=
  if b.length < 3 then
    false
  else if b.getD 0 0 != 0x1f || b.getD 1 0 != 0x8b || b.getD 2 0 != 0x08 then
    false
  else
    true

/-- `shouldCompress` decides whether or not to compress `b`: compress content
larger than `compressThreshold` that is not gzipped already. -/
def shouldCompress (b : List Nat) : Bool :=
  decide (b.length > compressThreshold) && !isGzipped b

/-- Model of the gzip compressor (`klauspost/compress/gzip` writer, external to
the repository): the output is a gzip-framed stream, i.e. it begins with the
gzip magic bytes, and framing is losslessly invertible.  The body after the
header is kept abstract as the payload itself; only the header shape and
round-trip identity are used. -/
def gzipCompress (p : List Nat) : List Nat :=
  gzipMagic ++ p

/-- Model of the gzip decompressor: succeeds exactly on gzip-framed input
(header = magic bytes) and inverts `gzipCompress`; on input without the gzip
header it fails the way `gzip.NewReader` / `reader.Reset` report
`gzip.ErrHeader`. -/
def gzipDecompress (b : List Nat) : Option (List Nat) :=
  if b.take 3 = gzipMagic then some (b.drop 3) else none

/-- The key space of the Redis backend: key → stored bytes. -/
abbrev Store := String → Option (List Nat)

/-- `SET key v` on the backend (expiration is orthogonal to every claim and
not modelled). -/
def Store.set (s : Store) (key : String) (v : List Nat) : Store :=
  fun k => if k = key then some v else s k

/-- The empty key space. -/
def emptyStore : Store := fun _ => none

/-- `Cache.UpdateBytes`: store the payload as-is unless `shouldCompress`, in
which case the gzip-framed compression is stored.  The gzip writer writes into
an in-memory `bytes.Buffer`, so the `writer.Write` / `writer.Close` error
returns are dead paths for the in-memory compressor and the model returns the
new store directly. -/
def UpdateBytes (store : Store) (key : String) (payload : List Nat) : Store :=
  if !shouldCompress payload then
    store.set key payload
  else
    store.set key (gzipCompress payload)

/-- `Cache.ReadBytes`, generic in the decompressor: `GET key` (a missing key is
the `redis.Nil` error of `.Bytes()`), pass non-gzipped content through
unchanged, otherwise run the (pooled) gzip reader, whose outcome — including
the `gzip.NewReader` / `reader.Reset` / `io.Copy` error returns, each wrapped
at its site — is abstracted as the `gunzip` argument. -/
def ReadBytesG (gunzip : List Nat → Except GoErr (List Nat))
    (store : Store) (key : String) : Except GoErr (List Nat) :=
  match store key with
  | none => .error (.wrap "redis GET" (.base "redis: nil"))
  | some raw =>
    if !isGzipped raw then
      .ok raw
    else
      match gunzip raw with
      | .error e => .error e
      | .ok b => .ok b

/-- The concrete decompressor of the model compressor: fails exactly on input
that is not gzip-framed, the way `gzip.NewReader`/`reader.Reset` report
`gzip.ErrHeader`. -/
def modelGunzip (raw : List Nat) : Except GoErr (List Nat) :=
  match gzipDecompress raw with
  | some b => .ok b
  | none => .error (.wrap "gzip.NewReader" (.base "gzip: invalid header"))

/-- `Cache.ReadBytes` with the concrete model decompressor. -/
def ReadBytes : Store → String → Except GoErr (List Nat) :=
  ReadBytesG modelGunzip

/-- `Cache.Read`, generic in the decompressor and the msgpack decoder:
`ReadBytes` failure is wrapped as `"ReadBytes: %w"`, decode failure as
`"msgpack decoding: %w"`, otherwise the decoded value is returned. -/
def ReadG {α : Type} (gunzip : List Nat → Except GoErr (List Nat))
    (decode : List Nat → Except GoErr α)
    (store : Store) (key : String) : Except GoErr α :=
  match ReadBytesG gunzip store key with
  | .error e => .error (.wrap "ReadBytes" e)
  | .ok raw =>
    match decode raw with
    | .error e => .error (.wrap "msgpack decoding" e)
    | .ok v => .ok v

/-- `UNLINK keys...` on the backend. -/
def Store.unlink (s : Store) (keys : List String) : Store :=
  fun k => if keys.contains k then none else s k

/-- One iteration of the scan loop body of `Cache.RevokeByPattern` for the
key `k` delivered by the cursor: append to the `keys` buffer, increment `i`,
and when `i > 1000` reset `i`, issue an `Unlink` round with the buffer and
clear it (`keys = keys[:0]`). -/
structure ScanState where
  keys : List String
  i : Nat
  batches : List (List String)
  deriving DecidableEq, Repr

/-- The loop body of `Cache.RevokeByPattern` (see `ScanState`). -/
def revokeStep (st : ScanState) (k : String) : ScanState :=
  let keys := st.keys ++ [k]
  let i := st.i + 1
  if i > 1000 then
    { keys := [], i := 0, batches := st.batches ++ [keys] }
  else
    { keys := keys, i := i, batches := st.batches }

/-- `Cache.RevokeByPattern`, projected to the sequence of `Unlink` commands it
issues (in order) when the cursor scan yields `matched`: the in-loop rounds,
then the trailing flush guarded by `len(keys) > 0`. -/
def revokeBatches (matched : List String) : List (List String) :=
  let st := matched.foldl revokeStep { keys := [], i := 0, batches := [] }
  if st.keys.length > 0 then st.batches ++ [st.keys] else st.batches

/-- The effect of `Cache.RevokeByPattern` on the backend key space: apply each
issued `Unlink` batch in order. -/
def RevokeByPattern (store : Store) (matched : List String) : Store :=
  (revokeBatches matched).foldl Store.unlink store

/-- A `sync.Pool` interaction: `get` records that `Pool.Get` returned an
existing instance (non-nil type assertion), `put` records a `Pool.Put`. -/
inductive PoolEvent where
  | get
  | put
  deriving DecidableEq, Repr

/-- The pool interactions of the decompress section of `Cache.ReadBytes`, in
execution order, per control path: `pooled` = `greaders.Get()` yielded an
instance, `newOk` = `gzip.NewReader` succeeded, `resetOk` = `reader.Reset`
succeeded, `copyOk` = `io.Copy` succeeded.  `defer greaders.Put(reader)` is
installed only after the `reader.Reset` error return, so that return drops
the pooled reader; once installed, the deferred `Put` fires on the `io.Copy`
error return and on the normal return alike. -/
def readBytesPoolEvents (pooled newOk resetOk copyOk : Bool) : List PoolEvent :=
  if pooled then
    if resetOk then
      if copyOk then [.get, .put] else [.get, .put]
    else
      [.get]
  else
    if newOk then
      if copyOk then [.put] else [.put]
    else
      []

/-- The pool interactions of the compress section of `Cache.UpdateBytes`:
`pooled` = `gwriters.Get()` yielded an instance, `writeOk` / `closeOk` /
`setOk` = outcome of `writer.Write`, `writer.Close`, `redis SET`.
`defer gwriters.Put(writer)` is installed right after acquisition, before any
fallible operation, so the `Put` fires on every exit path. -/
def updateBytesPoolEvents (pooled writeOk closeOk setOk : Bool) : List PoolEvent :=
  if pooled then
    if writeOk then
      if closeOk then
        if setOk then [.get, .put] else [.get, .put]
      else [.get, .put]
    else [.get, .put]
  else
    if writeOk then
      if closeOk then
        if setOk then [.put] else [.put]
      else [.put]
    else [.put]

/-- The multiplexer's `topicCallbacks` registry (`map[string][]func`),
flattened to (callback id, topic) pairs in registration order: each `Watch`
appends its callback under every requested topic, and the per-topic slice
`topicCallbacks[t]` is the order-preserving restriction to `t`. -/
abbrev Registry := List (Nat × String)

/-- `DB.getWatchCallbacks`: the snapshot of the callbacks registered for
`topic`, in registration order, taken under `topicCallbackMu.RLock` (released
by the deferred `RUnlock` before the caller invokes anything). -/
def getWatchCallbacks (reg : Registry) (topic : String) : List Nat :=
  (reg.filter (fun p => p.2 == topic)).map (fun p => p.1)

/-- The callback invocation loop of one round of `DB.watch`
(`for _, cb := range cbs { cb(ctx, notify) }`): `behavior cb` is the outcome
of invoking callback `cb` (`.error` = the callback panics).  The call site
has no deferred `recover`, so a panic propagates immediately and the
remaining callbacks of the round are skipped. -/
def invokeCallbacks (behavior : Nat → Except String Unit) :
    List Nat → Except String Unit
  | [] => .ok ()
  | cb :: rest =>
    match behavior cb with
    | .error e => .error e
    | .ok _ => invokeCallbacks behavior rest

/-- The `for notify := range channel` loop of `DB.watch` over the incoming
notification topics, returning the notifications fully dispatched plus the
panic value, if one escaped a callback and terminated the goroutine (leaving
the remaining notifications undelivered). -/
def watchLoop (reg : Registry) (behavior : Nat → Except String Unit) :
    List String → List String × Option String
  | [] => ([], none)
  | topic :: rest =>
    match invokeCallbacks behavior (getWatchCallbacks reg topic) with
    | .error e => ([], some e)
    | .ok _ =>
      let done := watchLoop reg behavior rest
      (topic :: done.1, done.2)

/-- The observable events of one round of the dispatch loop: read-lock
acquire/release (inside `getWatchCallbacks`), derivation of a fresh
deadline-bearing context, callback invocations, context cancellation. -/
inductive DispatchEvent where
  | rlock
  | runlock
  | newCtx (ctxId : Nat) (deadlineSeconds : Nat)
  | invoke (cb : Nat) (ctxId : Nat)
  | cancel (ctxId : Nat)
  deriving DecidableEq, Repr

/-- One round of the dispatch loop of `DB.watch` for a notification on
`topic`, as its event sequence: `cbs := db.getWatchCallbacks(notify.Channel)`
acquires and (deferred) releases the read lock; then
`context.WithTimeout(Background, 10s)` derives one fresh context; then each
snapshotted callback is invoked with that one context, in order; then
`cancel()`. -/
def dispatchEvents (reg : Registry) (topic : String) (ctxId : Nat) :
    List DispatchEvent :=
  [.rlock, .runlock, .newCtx ctxId 10]
    ++ (getWatchCallbacks reg topic).map (fun cb => .invoke cb ctxId)
    ++ [.cancel ctxId]

/-- The dispatch loop over a sequence of incoming notification topics;
`ctxId` numbers the contexts in derivation order, so each round derives a
fresh one. -/
def watchEvents (reg : Registry) : List String → Nat → List DispatchEvent
  | [], _ => []
  | topic :: rest, n => dispatchEvents reg topic n ++ watchEvents reg rest (n + 1)

/-- Projection of an event to its (callback, context) data when it is an
invocation. -/
def invokeData : DispatchEvent → Option (Nat × Nat)
  | .invoke cb c => some (cb, c)
  | _ => none

/-- Projection of an event to its (context, deadline) data when it is a
context derivation. -/
def ctxData : DispatchEvent → Option (Nat × Nat)
  | .newCtx c d => some (c, d)
  | _ => none

/-- A `Watch` call in flight: its callback id and requested topics. -/
structure WatchCall where
  cb : Nat
  topics : List String
  deriving DecidableEq, Repr

/-- The multiplexer state shared by `Watch` callers: whether the
`listenerOnce` latch has fired, how many upstream subscription channels
(`db.pg.Listen`) have been created, how many dispatch goroutines
(`go db.watch()`) have been started, and the registry. -/
structure MuxState where
  initialized : Bool
  channels : Nat
  goroutines : Nat
  registry : Registry
  deriving DecidableEq, Repr

/-- A fresh (uninitialized) multiplexer. -/
def MuxState.start : MuxState :=
  { initialized := false, channels := 0, goroutines := 0, registry := [] }

/-- `DB.Watch` for a single caller: the `listenerOnce.Do` block (create the
one listener, the callback map and start the dispatch goroutine — only if the
latch has not fired), then `db.listener.Listen(ctx, topic...)` whose outcome
is the `listen` argument, and only on its success the append of the callback
under every requested topic (under the write lock); on failure the wrapped
error is returned with the registry untouched. -/
def Watch (listen : List String → Except GoErr Unit) (s : MuxState)
    (c : WatchCall) : Except GoErr Unit × MuxState :=
  let s1 := if s.initialized then s
            else { s with
                   initialized := true
                   channels := s.channels + 1
                   goroutines := s.goroutines + 1 }
  match listen c.topics with
  | .error e => (.error (.wrap "db.listener.Listen" e), s1)
  | .ok _ =>
    (.ok (), { s1 with
      registry := s1.registry ++ c.topics.map (fun t => (c.cb, t)) })

/-- The atomic steps of one `DB.Watch` call, for the interleaved execution of
racing callers: step 0 is the `listenerOnce.Do` block (`sync.Once` gives the
block mutual exclusion and makes latecomers wait for its completion, so it is
one atomic step that fires only when the latch has not fired); step 1 is
`listener.Listen(topic...)` on the shared listener (taken as succeeding here —
the failing case is settled separately on `Watch`); step 2 appends the
callback under every requested topic while holding the write lock. -/
def watchStep (c : WatchCall) (pc : Nat) (s : MuxState) : MuxState :=
  match pc with
  | 0 => if s.initialized then s
         else { s with
                initialized := true
                channels := s.channels + 1
                goroutines := s.goroutines + 1 }
  | 1 => s
  | 2 => { s with registry := s.registry ++ c.topics.map (fun t => (c.cb, t)) }
  | _ => s

/-- A system of racing `Watch` calls: each call with its program counter
(0..3), plus the shared multiplexer state. -/
structure Sys where
  procs : List (WatchCall × Nat)
  state : MuxState
  deriving DecidableEq, Repr

/-- All calls poised at their first step on a fresh multiplexer. -/
def Sys.init (calls : List WatchCall) : Sys :=
  { procs := calls.map (fun c => (c, 0)), state := MuxState.start }

/-- Scheduler step: call `i` executes its next atomic step (no-op when `i` is
out of range or that call has returned). -/
def sysStep (sys : Sys) (i : Nat) : Sys :=
  match sys.procs.get? i with
  | some (c, pc) =>
    if pc < 3 then
      { procs := sys.procs.set i (c, pc + 1),
        state := watchStep c pc sys.state }
    else sys
  | none => sys

/-- Run the racing calls under an arbitrary schedule. -/
def sysRun (sys : Sys) (sched : List Nat) : Sys :=
  sched.foldl sysStep sys

/-- The invariant of the racing-`Watch` system: slots keep their calls; the
upstream-channel and dispatch-goroutine counts are 1 exactly when the
`listenerOnce` latch has fired (0 before); a call past its first step has seen
the latch fire; a returned call has its callback registered under each of its
requested topics. -/
def SysInv (calls : List WatchCall) (sys : Sys) : Prop :=
  sys.procs.map Prod.fst = calls
  ∧ sys.state.channels = (if sys.state.initialized then 1 else 0)
  ∧ sys.state.goroutines = (if sys.state.initialized then 1 else 0)
  ∧ (∀ p ∈ sys.procs, 1 ≤ p.2 → sys.state.initialized = true)
  ∧ (∀ p ∈ sys.procs, 3 ≤ p.2 →
      ∀ t ∈ p.1.topics, (p.1.cb, t) ∈ sys.state.registry)

/-- A callback behavior in which callback 0 panics. -/
def panicBehavior : Nat → Except String Unit :=
  fun cb => if cb = 0 then .error "boom" else .ok ()

/-- An upstream listener whose `Listen` always fails. -/
def failingListen : List String → Except GoErr Unit :=
  fun _ => .error (.base "broken pipe")

end Telescope

namespace Telescope

/-- Helper: `isGzipped b` holds iff the first three
bytes of `b` are the gzip magic sequence. -/
theorem isGzipped_iff (b : List Nat) :
    isGzipped b = true ↔ b.take 3 = gzipMagic := by
  rcases b with _ | ⟨b0, b⟩
  · simp [isGzipped, gzipMagic]
  rcases b with _ | ⟨b1, b⟩
  · simp [isGzipped, gzipMagic]
  rcases b with _ | ⟨b2, rest⟩
  · simp [isGzipped, gzipMagic]
  have hlen : ¬ ((b0 :: b1 :: b2 :: rest).length < 3) := by
    simp [List.length_cons]
  simp only [isGzipped, hlen, if_false, gzipMagic, List.take, List.getD_cons_zero,
    List.getD_cons_succ]
  rcases Nat.decEq b0 0x1f with h0 | h0
  · simp [h0]
  rcases Nat.decEq b1 0x8b with h1 | h1
  · simp [h1]
  rcases Nat.decEq b2 0x08 with h2 | h2
  · simp [h2]
  simp [h0, h1, h2]

/-- Helper: the compression predicate, spelled out. -/
theorem shouldCompress_iff (b : List Nat) :
    shouldCompress b = true ↔ (b.length > 4096 ∧ ¬ b.take 3 = gzipMagic) := by
  simp only [shouldCompress, compressThreshold, Bool.and_eq_true, decide_eq_true_eq,
    Bool.not_eq_true']
  rw [Bool.eq_false_iff, Ne, isGzipped_iff]

/-- Helper: compression always produces a gzip-framed stream. -/
theorem gzipCompress_take (p : List Nat) : (gzipCompress p).take 3 = gzipMagic := rfl

/-- Helper: the model decompressor inverts the model compressor. -/
theorem gzipDecompress_gzipCompress (p : List Nat) :
    gzipDecompress (gzipCompress p) = some p := by
  simp [gzipDecompress, gzipCompress_take, gzipCompress, gzipMagic]

/-- Helper: looking up the key just set. -/
theorem Store.set_same (s : Store) (key : String) (v : List Nat) :
    Store.set s key v key = some v := by
  simp [Store.set]

/-- C7: `shouldCompress b` returns true iff `len b > 4096` and `b` does not
begin with the three bytes `0x1F, 0x8B, 0x08`; in particular any `b` of length
at most 4096, and any `b` starting with the gzip magic, is never compressed. -/
theorem claimC7_shouldCompress (b : List Nat) :
    shouldCompress b = true ↔ (b.length > 4096 ∧ ¬ b.take 3 = [0x1f, 0x8b, 0x08]) :=
  shouldCompress_iff b

/-- C1 (amended): for every payload `p` that does not itself begin with the
gzip magic sequence, `UpdateBytes` followed by `ReadBytes` returns `p`
unchanged; moreover the stored bytes do not begin with the gzip magic when
`len p ≤ 4096` and do begin with it when `len p > 4096`. -/
theorem claimC1_roundtrip (store : Store) (key : String) (p : List Nat)
    (hp : ¬ p.take 3 = gzipMagic) :
    ReadBytes (UpdateBytes store key p) key = .ok p
    ∧ ∃ v, UpdateBytes store key p key = some v
        ∧ (p.length ≤ 4096 → ¬ v.take 3 = gzipMagic)
        ∧ (p.length > 4096 → v.take 3 = gzipMagic) := by
  have hgz : isGzipped p = false := by
    rw [Bool.eq_false_iff, Ne, isGzipped_iff]
    exact hp
  rcases Nat.lt_or_ge 4096 p.length with hlen | hlen
  · -- compressed path
    have hsc : shouldCompress p = true := (shouldCompress_iff p).mpr ⟨hlen, hp⟩
    have hstored : UpdateBytes store key p key = some (gzipCompress p) := by
      rw [UpdateBytes, hsc]
      simp [Store.set_same]
    have hgzc : isGzipped (gzipCompress p) = true :=
      (isGzipped_iff _).mpr (gzipCompress_take p)
    refine ⟨?_, gzipCompress p, hstored, ?_, fun _ => gzipCompress_take p⟩
    · rw [ReadBytes, ReadBytesG, hstored]
      simp only [hgzc, Bool.not_true]
      rw [if_neg (by simp)]
      simp [modelGunzip, gzipDecompress_gzipCompress]
    · intro hle
      omega
  · -- stored raw
    have hsc : shouldCompress p = false := by
      rw [Bool.eq_false_iff, Ne, shouldCompress_iff]
      intro h
      omega
    have hstored : UpdateBytes store key p key = some p := by
      rw [UpdateBytes, hsc]
      simp [Store.set_same]
    refine ⟨?_, p, hstored, fun _ => hp, fun h => absurd h (by omega)⟩
    rw [ReadBytes, ReadBytesG, hstored]
    simp [hgz]

/-- Witness for C1 (amended): a concrete one-byte payload round-trips. -/
theorem claimC1_roundtrip_witness :
    ¬ ([0] : List Nat).take 3 = gzipMagic
    ∧ (ReadBytes (UpdateBytes emptyStore "k" [0]) "k" = .ok [0]
      ∧ ∃ v, UpdateBytes emptyStore "k" [0] "k" = some v
          ∧ (([0] : List Nat).length ≤ 4096 → ¬ v.take 3 = gzipMagic)
          ∧ (([0] : List Nat).length > 4096 → v.take 3 = gzipMagic)) :=
  ⟨by decide, claimC1_roundtrip emptyStore "k" [0] (by decide)⟩

/-- Counterexample to C1 as stated: the payload `[0x1f, 0x8b, 0x08]` (the
gzip magic itself, length 3 ≤ 4096) is stored verbatim, so the stored bytes do
begin with the gzip magic, and `ReadBytes` sees a gzip frame and decompresses
instead of returning the payload unchanged. -/
theorem claimC1_counterexample :
    UpdateBytes emptyStore "k" [0x1f, 0x8b, 0x08] "k" = some [0x1f, 0x8b, 0x08]
    ∧ ([0x1f, 0x8b, 0x08] : List Nat).length ≤ 4096
    ∧ ([0x1f, 0x8b, 0x08] : List Nat).take 3 = gzipMagic
    ∧ ¬ ReadBytes (UpdateBytes emptyStore "k" [0x1f, 0x8b, 0x08]) "k"
        = .ok [0x1f, 0x8b, 0x08] := by
  refine ⟨by decide, by decide, by decide, ?_⟩
  have h : ReadBytes (UpdateBytes emptyStore "k" [0x1f, 0x8b, 0x08]) "k"
      = .ok ([] : List Nat) := by rfl
  rw [h]
  intro hcontra
  simp at hcontra

/-- C8: `Read` succeeds exactly when the backend fetch, the decompression and
the decode all succeed; a `ReadBytes` failure (backend or decompression) is
returned wrapped as `"ReadBytes: %w"` and a decode failure as
`"msgpack decoding: %w"` — neither is converted into a miss or into data. -/
theorem claimC8_read_error_surfacing {α : Type}
    (gunzip : List Nat → Except GoErr (List Nat))
    (decode : List Nat → Except GoErr α) (store : Store) (key : String) :
    (∀ v, ReadG gunzip decode store key = .ok v ↔
      ∃ b, ReadBytesG gunzip store key = .ok b ∧ decode b = .ok v)
    ∧ (∀ e, ReadBytesG gunzip store key = .error e →
      ReadG gunzip decode store key = .error (.wrap "ReadBytes" e))
    ∧ (∀ b e, ReadBytesG gunzip store key = .ok b → decode b = .error e →
      ReadG gunzip decode store key = .error (.wrap "msgpack decoding" e)) := by
  refine ⟨fun v => ?_, fun e he => ?_, fun b e hb hd => ?_⟩
  · rw [ReadG]
    rcases hrb : ReadBytesG gunzip store key with e | b
    · simp
    · rcases hd : decode b with e' | v' <;> simp [hd]
  · rw [ReadG, he]
  · rw [ReadG, hb]
    simp [hd]

/-- Witness for C8: with a one-byte stored value and a decoder that always
fails, `Read` returns the wrapped decode error. -/
theorem claimC8_read_error_surfacing_witness :
    ReadG modelGunzip (fun _ => (.error (.base "bad") : Except GoErr (List Nat)))
      (Store.set emptyStore "k" [1]) "k"
      = .error (.wrap "msgpack decoding" (.base "bad")) :=
  (claimC8_read_error_surfacing modelGunzip
      (fun _ => (.error (.base "bad") : Except GoErr (List Nat)))
      (Store.set emptyStore "k" [1]) "k").2.2 [1] (.base "bad") (by rfl) rfl

/-- C10: when the cursor scan matches zero keys, `RevokeByPattern` issues no
`Unlink` command at all (the trailing flush is guarded on a non-empty buffer)
and leaves the backend key space unchanged. -/
theorem claimC10_no_match_no_delete :
    revokeBatches [] = [] ∧ ∀ store : Store, RevokeByPattern store [] = store :=
  ⟨rfl, fun _ => rfl⟩

/-- Helper: while at most 1000 keys have been accumulated since the last
flush, the scan loop only appends to the buffer and issues nothing. -/
theorem foldl_revokeStep_replicate (k : String) :
    ∀ (n : Nat) (st : ScanState), st.i + n ≤ 1000 →
      (List.replicate n k).foldl revokeStep st
        = { keys := st.keys ++ List.replicate n k, i := st.i + n,
            batches := st.batches } := by
  intro n
  induction n with
  | zero =>
    intro st h
    simp
  | succ m ih =>
    intro st h
    rw [List.replicate_succ, List.foldl_cons]
    have hstep : revokeStep st k
        = { keys := st.keys ++ [k], i := st.i + 1, batches := st.batches } := by
      rw [revokeStep]
      exact if_neg (by omega)
    rw [hstep, ih _ (show st.i + 1 + m ≤ 1000 by omega)]
    simp only [ScanState.mk.injEq]
    refine ⟨?_, by omega, trivial⟩
    rw [List.append_assoc, List.singleton_append, ← List.replicate_succ]

/-- C4 (code bug): a scan matching 1001 keys makes the in-loop flush fire only
after the 1001st append (`i > 1000`), so the single `Unlink` command issued
carries 1001 keys — more than the batch of 1000 the claim (and the code's own
comment) states. -/
theorem claimC4_batch_of_1001 :
    (revokeBatches (List.replicate 1001 "k")).map List.length = [1001] := by
  have h1000 := foldl_revokeStep_replicate "k" 1000
    { keys := [], i := 0, batches := [] } (show 0 + 1000 ≤ 1000 by omega)
  have hsplit : (List.replicate 1001 "k")
      = List.replicate 1000 "k" ++ [(("k") : String)] := by
    rw [← List.replicate_succ']
  rw [revokeBatches, hsplit, List.foldl_append, h1000, List.foldl_cons,
    List.foldl_nil]
  have hstep : revokeStep
      { keys := [] ++ List.replicate 1000 "k", i := 0 + 1000, batches := [] } "k"
      = { keys := [], i := 0,
          batches := [] ++ [([] ++ List.replicate 1000 "k") ++ [(("k") : String)]] } := by
    rw [revokeStep]
    exact if_pos (show 0 + 1000 + 1 > 1000 by omega)
  rw [hstep]
  simp only [List.nil_append, List.length_nil, gt_iff_lt, Nat.lt_irrefl,
    if_false, List.map_cons, List.map_nil, List.length_append,
    List.length_replicate, List.length_cons]

/-- Counterexample to C3 as stated: when the pool yields a reader and its
`Reset` fails, the error return happens before `defer greaders.Put(reader)` is
installed, so the instance taken from the pool is never returned to it. -/
theorem claimC3_counterexample :
    PoolEvent.get ∈ readBytesPoolEvents true true false true
    ∧ PoolEvent.put ∉ readBytesPoolEvents true true false true := by
  decide

/-- C3 (amended): the gzip writer is returned to the pool on every exit path
of `UpdateBytes` (including `writer.Write` / `writer.Close` / `SET` failure);
the gzip reader taken from the pool in `ReadBytes` is returned on every exit
path except the `reader.Reset` failure return, where it is dropped; on the
`gzip.NewReader` failure path no instance had been taken from the pool. -/
theorem claimC3_pool_release (pooled newOk resetOk copyOk writeOk closeOk setOk : Bool) :
    PoolEvent.put ∈ updateBytesPoolEvents pooled writeOk closeOk setOk
    ∧ (pooled = true → resetOk = true →
      PoolEvent.put ∈ readBytesPoolEvents pooled newOk resetOk copyOk)
    ∧ (pooled = false → PoolEvent.get ∉ readBytesPoolEvents pooled newOk resetOk copyOk) := by
  cases pooled <;> cases newOk <;> cases resetOk <;> cases copyOk <;>
    cases writeOk <;> cases closeOk <;> cases setOk <;> decide

/-- Witness for C3 (amended): happy paths return the instances. -/
theorem claimC3_pool_release_witness :
    PoolEvent.put ∈ updateBytesPoolEvents true true true true
    ∧ PoolEvent.put ∈ readBytesPoolEvents true true true true :=
  ⟨(claimC3_pool_release true true true true true true true).1,
    (claimC3_pool_release true true true true true true true).2.1 rfl rfl⟩

/-- Helper: when no invoked callback panics, the invocation loop completes. -/
theorem invokeCallbacks_ok (behavior : Nat → Except String Unit)
    (hb : ∀ cb, behavior cb = .ok ()) :
    ∀ cbs : List Nat, invokeCallbacks behavior cbs = .ok () := by
  intro cbs
  induction cbs with
  | nil => rfl
  | cons cb rest ih =>
    simp only [invokeCallbacks]
    rw [hb cb]
    exact ih

/-- Counterexample to C2 as stated: with callbacks 0 and 1 registered on
topic `t` and callback 0 panicking, the panic escapes the invocation loop
(`cb(ctx, notify)` has no deferred `recover`), terminating the dispatch loop
with the second notification undelivered. -/
theorem claimC2_counterexample :
    invokeCallbacks panicBehavior (getWatchCallbacks [(0, "t"), (1, "t")] "t")
      = .error "boom"
    ∧ watchLoop [(0, "t"), (1, "t")] panicBehavior ["t", "t"]
      = ([], some "boom") :=
  ⟨rfl, rfl⟩

/-- C2 (amended): a panic raised inside a callback is not caught at the call
site — it propagates out of the invocation, aborts the round and terminates
the dispatch loop, leaving subsequent notifications undelivered; only when no
callback panics does the loop deliver every notification. -/
theorem claimC2_panic_escapes (reg : Registry)
    (behavior : Nat → Except String Unit) :
    (∀ topic rest e,
      invokeCallbacks behavior (getWatchCallbacks reg topic) = .error e →
      watchLoop reg behavior (topic :: rest) = ([], some e))
    ∧ ((∀ cb, behavior cb = .ok ()) →
      ∀ topics, watchLoop reg behavior topics = (topics, none)) := by
  constructor
  · intro topic rest e h
    simp only [watchLoop]
    rw [h]
  · intro hb topics
    induction topics with
    | nil => rfl
    | cons t rest ih =>
      simp only [watchLoop]
      rw [invokeCallbacks_ok behavior hb, ih]

/-- Witness for C2 (amended): concrete registry, panicking callback, two
incoming notifications. -/
theorem claimC2_panic_escapes_witness :
    watchLoop [(0, "t")] panicBehavior ["t", "u"] = ([], some "boom") :=
  (claimC2_panic_escapes [(0, "t")] panicBehavior).1 "t" ["u"] "boom" rfl

/-- C9: when the upstream subscribe (`listener.Listen`) fails, `Watch` returns
the wrapped error and the registry is not mutated for any requested topic. -/
theorem claimC9_watch_error_atomic (listen : List String → Except GoErr Unit)
    (s : MuxState) (c : WatchCall) (e : GoErr)
    (h : listen c.topics = .error e) :
    (Watch listen s c).1 = .error (.wrap "db.listener.Listen" e)
    ∧ (Watch listen s c).2.registry = s.registry := by
  cases hi : s.initialized <;> simp [Watch, h, hi]

/-- Witness for C9: a listener that always fails, on a fresh multiplexer. -/
theorem claimC9_watch_error_atomic_witness :
    (Watch failingListen MuxState.start ⟨0, ["a"]⟩).1
      = .error (.wrap "db.listener.Listen" (.base "broken pipe"))
    ∧ (Watch failingListen MuxState.start ⟨0, ["a"]⟩).2.registry
      = MuxState.start.registry :=
  claimC9_watch_error_atomic failingListen MuxState.start ⟨0, ["a"]⟩
    (.base "broken pipe") rfl

/-- Helper: the invocation events of a round carry exactly the snapshotted
callbacks, in order, all under the round's one context. -/
theorem filterMap_invokeData_map (cbs : List Nat) (c : Nat) :
    (cbs.map (fun cb => DispatchEvent.invoke cb c)).filterMap invokeData
      = cbs.map (fun cb => (cb, c)) := by
  induction cbs with
  | nil => rfl
  | cons cb rest ih => simp [List.filterMap_cons, invokeData, ih]

/-- Helper: invocation events carry no context-derivation data. -/
theorem filterMap_ctxData_invokes (cbs : List Nat) (c : Nat) :
    (cbs.map (fun cb => DispatchEvent.invoke cb c)).filterMap ctxData = [] := by
  induction cbs with
  | nil => rfl
  | cons cb rest ih => simp [List.filterMap_cons, ctxData, ih]

/-- Helper: each dispatch round derives exactly one context, with a 10-second
deadline. -/
theorem filterMap_ctxData_dispatchEvents (reg : Registry) (topic : String)
    (c : Nat) :
    (dispatchEvents reg topic c).filterMap ctxData = [(c, 10)] := by
  simp [dispatchEvents, List.filterMap_append, List.filterMap_cons, ctxData,
    filterMap_ctxData_invokes]

/-- C6: in each round of the dispatch loop, the callbacks invoked are exactly
the registration-order snapshot for the notification's topic, all sharing the
round's single context; exactly one context with a 10-second deadline is
derived per round; the read lock is released before any callback invocation;
and across the loop each notification gets its own freshly derived context. -/
theorem claimC6_dispatch_shape (reg : Registry) (topic : String) (c : Nat) :
    ((dispatchEvents reg topic c).filterMap invokeData
      = (getWatchCallbacks reg topic).map (fun cb => (cb, c)))
    ∧ ((dispatchEvents reg topic c).filterMap ctxData = [(c, 10)])
    ∧ (∀ i cb x,
        (dispatchEvents reg topic c).get? i = some (.invoke cb x) →
        ∃ j, j < i ∧ (dispatchEvents reg topic c).get? j
          = some DispatchEvent.runlock)
    ∧ (∀ (ns : List String) (n : Nat),
        (watchEvents reg ns n).filterMap ctxData
          = (List.range' n ns.length).map (fun k => (k, 10))) := by
  refine ⟨?_, filterMap_ctxData_dispatchEvents reg topic c, ?_, ?_⟩
  · rw [dispatchEvents, List.filterMap_append, List.filterMap_append,
      filterMap_invokeData_map]
    simp [List.filterMap_cons, invokeData]
  · intro i cb x h
    match i with
    | 0 => simp [dispatchEvents] at h
    | 1 => simp [dispatchEvents] at h
    | 2 => simp [dispatchEvents] at h
    | j + 3 => exact ⟨1, by omega, rfl⟩
  · intro ns
    induction ns with
    | nil => intro n; rfl
    | cons t rest ih =>
      intro n
      rw [watchEvents, List.filterMap_append,
        filterMap_ctxData_dispatchEvents, ih, List.length_cons,
        List.range'_succ]
      rfl

/-- Witness for C6: with callback 7 registered on topic `t`, the invocation
event at index 3 is preceded by the read-lock release. -/
theorem claimC6_dispatch_shape_witness :
    ∃ j, j < 3 ∧ (dispatchEvents [(7, "t")] "t" 0).get? j
      = some DispatchEvent.runlock :=
  (claimC6_dispatch_shape [(7, "t")] "t" 0).2.2.1 3 7 0 rfl

/-- Helper: a scheduler step never changes which call occupies a slot. -/
theorem map_fst_set {α β : Type} :
    ∀ (l : List (α × β)) (i : Nat) (c : α) (pc x : β),
      l.get? i = some (c, pc) →
      (l.set i (c, x)).map Prod.fst = l.map Prod.fst := by
  intro l
  induction l with
  | nil =>
    intro i c pc x h
    simp at h
  | cons hd tl ih =>
    intro i c pc x h
    match i with
    | 0 =>
      simp only [List.get?] at h
      injection h with h
      simp [List.set, h]
    | n + 1 =>
      simp only [List.get?] at h
      simp [List.set, ih n c pc x h]

/-- Helper: the once-block step always leaves the latch fired. -/
theorem watchStep_zero_initialized (c : WatchCall) (s : MuxState) :
    (watchStep c 0 s).initialized = true := by
  cases hi : s.initialized <;> simp [watchStep, hi]

/-- Helper: no step of a call ever clears the latch. -/
theorem watchStep_initialized_mono (c : WatchCall) (pc : Nat) (s : MuxState)
    (h : s.initialized = true) : (watchStep c pc s).initialized = true := by
  rcases pc with _ | _ | _ | n <;> simp [watchStep, h]

/-- Helper: no step of a call ever removes a registration. -/
theorem watchStep_registry_mono (c : WatchCall) (pc : Nat) (s : MuxState)
    (x : Nat × String) (h : x ∈ s.registry) :
    x ∈ (watchStep c pc s).registry := by
  rcases pc with _ | _ | _ | n
  · cases hi : s.initialized <;> simp [watchStep, hi, h]
  · simpa [watchStep] using h
  · simp [watchStep, h]
  · simpa [watchStep] using h

/-- Helper: every step preserves "channel and goroutine counts are 1 iff the
latch has fired". -/
theorem watchStep_counts (c : WatchCall) (pc : Nat) (s : MuxState)
    (hch : s.channels = if s.initialized then 1 else 0)
    (hgo : s.goroutines = if s.initialized then 1 else 0) :
    (watchStep c pc s).channels
      = (if (watchStep c pc s).initialized then 1 else 0)
    ∧ (watchStep c pc s).goroutines
      = (if (watchStep c pc s).initialized then 1 else 0) := by
  rcases pc with _ | _ | _ | n
  · cases hi : s.initialized
    · simp only [hi, if_false] at hch hgo
      simp [watchStep, hi, hch, hgo]
    · simp [watchStep, hi, hch, hgo]
  · simp [watchStep, hch, hgo]
  · simp [watchStep, hch, hgo]
  · simp [watchStep, hch, hgo]

/-- Helper: the invariant holds at the start. -/
theorem sysInit_inv (calls : List WatchCall) : SysInv calls (Sys.init calls) := by
  refine ⟨?_, rfl, rfl, ?_, ?_⟩
  · simp only [Sys.init, List.map_map]
    exact List.map_id calls
  · intro p hp h1
    simp only [Sys.init, List.mem_map] at hp
    obtain ⟨c, -, rfl⟩ := hp
    simp at h1
  · intro p hp h3
    simp only [Sys.init, List.mem_map] at hp
    obtain ⟨c, -, rfl⟩ := hp
    simp at h3

/-- Helper: one scheduler step preserves the invariant. -/
theorem sysStep_inv (calls : List WatchCall) (sys : Sys) (i : Nat)
    (h : SysInv calls sys) : SysInv calls (sysStep sys i) := by
  obtain ⟨hfst, hch, hgo, hinit, hreg⟩ := h
  rcases hg : sys.procs.get? i with _ | ⟨c, pc⟩
  · simp only [sysStep, hg]
    exact ⟨hfst, hch, hgo, hinit, hreg⟩
  rcases Nat.lt_or_ge pc 3 with hpc | hpc
  · simp only [sysStep, hg, if_pos hpc]
    have hmem : (c, pc) ∈ sys.procs := List.get?_mem hg
    have hcounts := watchStep_counts c pc sys.state hch hgo
    refine ⟨?_, hcounts.1, hcounts.2, ?_, ?_⟩
    · rw [map_fst_set sys.procs i c pc (pc + 1) hg]
      exact hfst
    · intro p hp h1
      rcases List.mem_or_eq_of_mem_set hp with hp' | rfl
      · exact watchStep_initialized_mono c pc sys.state (hinit p hp' h1)
      · rcases Nat.eq_zero_or_pos pc with rfl | hpos
        · exact watchStep_zero_initialized c sys.state
        · exact watchStep_initialized_mono c pc sys.state
            (hinit (c, pc) hmem hpos)
    · intro p hp h3 t ht
      rcases List.mem_or_eq_of_mem_set hp with hp' | rfl
      · exact watchStep_registry_mono c pc sys.state _ (hreg p hp' h3 t ht)
      · have h3' : 3 ≤ pc + 1 := h3
        have hpc2 : pc = 2 := by omega
        subst hpc2
        simp only [watchStep]
        exact List.mem_append_right _ (List.mem_map.mpr ⟨t, ht, rfl⟩)
  · have hnlt : ¬ pc < 3 := by omega
    simp only [sysStep, hg, if_neg hnlt]
    exact ⟨hfst, hch, hgo, hinit, hreg⟩

/-- Helper: any schedule preserves the invariant. -/
theorem sysRun_inv (calls : List WatchCall) (sched : List Nat) :
    ∀ sys : Sys, SysInv calls sys → SysInv calls (sysRun sys sched) := by
  induction sched with
  | nil => exact fun sys h => h
  | cons i rest ih => exact fun sys h => ih (sysStep sys i) (sysStep_inv calls sys i h)

/-- C5: for any non-empty set of racing `Watch` calls and any interleaving of
their atomic steps that completes every call, exactly one upstream
subscription channel is created and exactly one dispatch goroutine is started
(the `listenerOnce` latch fires once), and every call's callback ends up
registered under each of its requested topics. -/
theorem claimC5_once_latch (calls : List WatchCall) (sched : List Nat)
    (hne : calls ≠ [])
    (hdone : ∀ p ∈ (sysRun (Sys.init calls) sched).procs, p.2 = 3) :
    (sysRun (Sys.init calls) sched).state.channels = 1
    ∧ (sysRun (Sys.init calls) sched).state.goroutines = 1
    ∧ ∀ c ∈ calls, ∀ t ∈ c.topics,
        (c.cb, t) ∈ (sysRun (Sys.init calls) sched).state.registry := by
  obtain ⟨hfst, hch, hgo, hinit, hreg⟩ :=
    sysRun_inv calls sched (Sys.init calls) (sysInit_inv calls)
  have hprocs_ne : (sysRun (Sys.init calls) sched).procs ≠ [] := by
    intro hnil
    rw [hnil] at hfst
    exact hne hfst.symm
  obtain ⟨p, hp⟩ := List.exists_mem_of_ne_nil _ hprocs_ne
  have hi : (sysRun (Sys.init calls) sched).state.initialized = true :=
    hinit p hp (by rw [hdone p hp]; omega)
  refine ⟨by rw [hch, hi]; rfl, by rw [hgo, hi]; rfl, ?_⟩
  intro c hc t ht
  rw [← hfst] at hc
  obtain ⟨q, hqmem, hqfst⟩ := List.mem_map.mp hc
  have := hreg q hqmem (by rw [hdone q hqmem])
  rw [hqfst] at this
  exact this t ht

/-- Witness for C5: two racing calls on topics `a` and `b`, steps fully
interleaved. -/
theorem claimC5_once_latch_witness :
    (sysRun (Sys.init [⟨0, ["a"]⟩, ⟨1, ["b"]⟩]) [0, 1, 0, 1, 0, 1]).state.channels = 1
    ∧ (sysRun (Sys.init [⟨0, ["a"]⟩, ⟨1, ["b"]⟩]) [0, 1, 0, 1, 0, 1]).state.goroutines = 1
    ∧ ∀ c ∈ [WatchCall.mk 0 ["a"], WatchCall.mk 1 ["b"]], ∀ t ∈ c.topics,
        (c.cb, t) ∈ (sysRun (Sys.init [⟨0, ["a"]⟩, ⟨1, ["b"]⟩])
          [0, 1, 0, 1, 0, 1]).state.registry :=
  claimC5_once_latch [⟨0, ["a"]⟩, ⟨1, ["b"]⟩] [0, 1, 0, 1, 0, 1]
    (by decide) (by decide)

end Telescope
